import Mathlib

/-!  Verification of the audio delivery and reconnection subsystem of the
buffered real-time transcription client (src/main.ts).

The embedding is shallow: JavaScript numbers that hold sample values and
sequence counters are modelled as `Int`/`Nat`; floating-point audio samples
and timestamps are modelled as rationals (`Rat`), which is exact for every
constant the program manipulates (0.05-second chunk durations, transcript
end times); `Int16Array` buffers are `List Int`; the module-level mutable
variables of main.ts become the fields of one state record `S`, and every
callback of the event loop (audio frame delivery, inbound protocol message,
reconnect trigger, health-check tick, stop) becomes a `step` of a state
machine.  The asynchronous `reconnectSession` function is split at its
first `await` (the credential fetch): the synchronous prefix is
`reconnectSessionBegin`, the resumption that runs after the credential,
transport open and settle delay all succeed is `reconnectSessionEnd`, and
a rejected credential fetch (which abandons the coroutine) is
`Event.reconnectFail`.  Ghost fields `sendLog` / `epochSendLog` record the
chunks handed to `client.sendAudio`, which the source performs as an
opaque external call.  -/

namespace Buffered

/-- TARGET_SAMPLE_RATE in main.ts (line 25). -/
def TARGET_SAMPLE_RATE : Nat := 16000

/-- CHUNK_DURATION_MS in main.ts (line 26). -/
def CHUNK_DURATION_MS : Nat := 50

/-- CHUNK_SAMPLES = Math.round(TARGET_SAMPLE_RATE * CHUNK_DURATION_MS / 1000)
(main.ts line 27).  The quotient is the exact integer 800, so Math.round is
the identity and natural-number division is faithful. -/
def CHUNK_SAMPLES : Nat := TARGET_SAMPLE_RATE * CHUNK_DURATION_MS / 1000

/-- ACK_TIMEOUT_MS in main.ts (line 28). -/
def ACK_TIMEOUT_MS : Nat := 3000

/-- CHUNK_DURATION_S = CHUNK_DURATION_MS / 1000 (main.ts line 31), an exact
rational. -/
def CHUNK_DURATION_S : Rat := (CHUNK_DURATION_MS : Rat) / 1000

/-- JavaScript Math.round: round half toward positive infinity. -/
def jsRound (q : Rat) : Int := ⌊q + 1 / 2⌋

/-- Truncation toward zero, the conversion JavaScript applies when a number
is stored into an Int16Array element (all stored values here fit in the
int16 range, so no wrap-around occurs). -/
def truncQ (q : Rat) : Int := if q < 0 then -⌊-q⌋ else ⌊q⌋

/-- The per-sample body of floatTo16BitPCM (main.ts lines 570-576): clamp
to [-1, 1], then scale negatives by 0x8000 and non-negatives by 0x7fff. -/
def floatSampleToInt16 (s : Rat) : Int :=
  let s1 := if s < -1 then -1 else s
  let s2 := if 1 < s1 then 1 else s1
  if s2 < 0 then truncQ (s2 * 32768) else truncQ (s2 * 32767)

/-- floatTo16BitPCM (main.ts lines 568-578): the for-loop writes
`output[i] = convert(input[i])` for every index, i.e. an elementwise map. -/
def floatTo16BitPCM (input : List Rat) : List Int :=
  input.map floatSampleToInt16

/-- The inner accumulation loop of resampleTo16k (main.ts lines 387-392):
`for (i = offsetBuffer; i < nextOffsetBuffer && i < input.length; i++)`,
returning the running sum and the element count. -/
def spanAccum (input : List Rat) (i stop : Nat) : Rat × Nat :=
  if i < stop ∧ i < input.length then
    let p := spanAccum input (i + 1) stop
    (input.getD i 0 + p.1, p.2 + 1)
  else (0, 0)
termination_by stop - i
decreasing_by omega

/-- The outer while-loop of resampleTo16k (main.ts lines 385-396): one
output sample per iteration, averaging the span between consecutive rounded
buffer offsets. -/
def resampleLoop (input : List Rat) (ratio : Rat) (newLength offsetResult : Nat)
    (offsetBuffer : Int) : List Rat :=
  if offsetResult < newLength then
    let nextOffsetBuffer := jsRound ((offsetResult + 1 : Rat) * ratio)
    let p := spanAccum input offsetBuffer.toNat nextOffsetBuffer.toNat
    (if 0 < p.2 then p.1 / (p.2 : Rat) else 0) ::
      resampleLoop input ratio newLength (offsetResult + 1) nextOffsetBuffer
  else []
termination_by newLength - offsetResult
decreasing_by omega

/-- resampleTo16k (main.ts lines 370-399). -/
def resampleTo16k (input : List Rat) (inputSampleRate targetSampleRate : Rat) :
    List Int :=
  if inputSampleRate = targetSampleRate then floatTo16BitPCM input
  else
    let ratio := inputSampleRate / targetSampleRate
    let newLength := (jsRound ((input.length : Rat) / ratio)).toNat
    floatTo16BitPCM (resampleLoop input ratio newLength 0 0)

/-- Total number of samples across the frames of a queue, as an integer
(the type of the mutable JavaScript counter `queuedSamples`). -/
def sumLen (q : List (List Int)) : Int := ((q.map List.length).sum : Nat)

/-- The fill loop of dequeueChunk (main.ts lines 544-560): repeatedly copy
from the front frame; a frame no longer than the remaining need is consumed
whole (shift), a longer one is split and its leftover becomes the new front
element.  Returns the copied samples and the remaining queue. -/
def fillChunk (needed : Nat) : List (List Int) → List Int × List (List Int)
  | [] => ([], [])
  | f :: rest =>
    if needed = 0 then ([], f :: rest)
    else if f.length ≤ needed then
      let p := fillChunk (needed - f.length) rest
      (f ++ p.1, p.2)
    else (f.take needed, f.drop needed :: rest)

/-- dequeueChunk (main.ts lines 536-566) as a pure function of the queue
and the `queuedSamples` counter.  The allocated Int16Array is zero-filled,
so samples not covered by the fill loop stay 0; the counter is decremented
by CHUNK_SAMPLES and defensively floored at zero. -/
def dequeueChunk (queue : List (List Int)) (queuedSamples : Int) :
    Option (List Int) × List (List Int) × Int :=
  if queuedSamples < (CHUNK_SAMPLES : Int) then (none, queue, queuedSamples)
  else
    let p := fillChunk CHUNK_SAMPLES queue
    let chunk := p.1 ++ List.replicate (CHUNK_SAMPLES - p.1.length) 0
    let rem := queuedSamples - (CHUNK_SAMPLES : Int)
    (some chunk, p.2, if rem < 0 then 0 else rem)

/-- dequeueChunk without the defensive floor-at-zero on the counter
(main.ts line 563); used to state that the floor branch is never taken. -/
def dequeueChunkNoFloor (queue : List (List Int)) (queuedSamples : Int) :
    Option (List Int) × List (List Int) × Int :=
  if queuedSamples < (CHUNK_SAMPLES : Int) then (none, queue, queuedSamples)
  else
    let p := fillChunk CHUNK_SAMPLES queue
    let chunk := p.1 ++ List.replicate (CHUNK_SAMPLES - p.1.length) 0
    (some chunk, p.2, queuedSamples - (CHUNK_SAMPLES : Int))

/-- The remainder queue described by the specification of `dequeueChunk`:
drop whole frames from the front while they fit, and split the first frame
that straddles the boundary, leaving its leftover as the new first
element. -/
def splitFront (n : Nat) : List (List Int) → List (List Int)
  | [] => []
  | f :: rest => if f.length ≤ n then splitFront (n - f.length) rest
                 else f.drop n :: rest

/-- Greedy chunking of a flat sample stream: successive CHUNK_SAMPLES-sized
blocks, stopping when fewer than CHUNK_SAMPLES samples remain. -/
def greedyChunks (l : List Int) : List (List Int) :=
  if CHUNK_SAMPLES ≤ l.length then
    l.take CHUNK_SAMPLES :: greedyChunks (l.drop CHUNK_SAMPLES)
  else []
termination_by l.length
decreasing_by
  simp only [List.length_drop]
  have h8 : CHUNK_SAMPLES = 800 := rfl
  omega

/-- The samples left over after greedy chunking. -/
def greedyRest (l : List Int) : List Int :=
  if CHUNK_SAMPLES ≤ l.length then greedyRest (l.drop CHUNK_SAMPLES) else l
termination_by l.length
decreasing_by
  simp only [List.length_drop]
  have h8 : CHUNK_SAMPLES = 800 := rfl
  omega

/-- The local variables of a suspended `reconnectSession` call: the replay
chunks drained from the sliding buffer and the saved copy of the audio
queue (main.ts lines 409 and 414).  `savedQueuedSamples` is a module-level
variable and therefore lives in `S`, not here. -/
structure Cont where
  replayChunks : List (List Int)
  savedQueue : List (List Int)
deriving DecidableEq, Repr

/-- The module-level mutable state of main.ts, plus ghost send logs.
`client` records whether the `client` variable is non-null,
`audioContextLive` whether `audioContext` is non-null, `healthCheckOn`
whether `healthCheckIntervalId` is non-null, and `reconCont` the suspended
`reconnectSession` coroutines (at most one is ever pending). -/
structure S where
  audioBufferQueue : List (List Int)
  queuedSamples : Int
  nextSeqNo : Nat
  pendingChunks : List (Nat × List Int × Nat)
  client : Bool
  sessionStopped : Bool
  isReconnecting : Bool
  audioContextLive : Bool
  healthCheckOn : Bool
  savedQueuedSamples : Int
  slidingBuffer : List (List Int × Rat)
  lastTranscriptEndTime : Rat
  currentAudioTimestamp : Rat
  reconCont : List Cont
  sendLog : List (List Int)
  epochSendLog : List (List Int)
deriving DecidableEq, Repr

/-- JavaScript `Map.set` on an association list: replace in place if the
key is present, append otherwise. -/
def mapSet (m : List (Nat × List Int × Nat)) (k : Nat) (v : List Int × Nat) :
    List (Nat × List Int × Nat) :=
  if m.any (fun e => e.1 = k) then
    m.map (fun e => if e.1 = k then (k, v) else e)
  else m ++ [(k, v)]

/-- JavaScript `Map.delete` on an association list. -/
def mapDelete (m : List (Nat × List Int × Nat)) (k : Nat) :
    List (Nat × List Int × Nat) :=
  m.filter (fun e => e.1 ≠ k)

/-- The cumulative-acknowledgment loop of handleReceiveMessage (main.ts
lines 249-251): `for (let i = 1; i <= ackSeqNo; i++) pendingChunks.delete(i)`.
`ackDeleteLoop m n` has performed the deletions for i = 1 .. n. -/
def ackDeleteLoop (m : List (Nat × List Int × Nat)) (n : Nat) :
    List (Nat × List Int × Nat) :=
  if n = 0 then m else mapDelete (ackDeleteLoop m (n - 1)) n

/-- addToSlidingBuffer (main.ts lines 497-500): push the chunk with the
current virtual timestamp and advance the virtual clock by one chunk
duration. -/
def addToSlidingBuffer (s : S) (chunk : List Int) : S :=
  { s with slidingBuffer := s.slidingBuffer ++ [(chunk, s.currentAudioTimestamp)],
           currentAudioTimestamp := s.currentAudioTimestamp + CHUNK_DURATION_S }

/-- trimSlidingBuffer (main.ts lines 502-507): shift entries from the front
while their timestamp is strictly below the last transcript end time. -/
def trimSlidingBuffer (buf : List (List Int × Rat)) (lastEnd : Rat) :
    List (List Int × Rat) :=
  buf.dropWhile (fun e => e.2 < lastEnd)

/-- The AddTranscript branch of handleReceiveMessage (main.ts lines
238-242): when the reported end_time exceeds the high-water mark, advance
it and trim the sliding buffer (transcript text itself is not modelled). -/
def handleTranscript (s : S) (endTime : Rat) : S :=
  if s.lastTranscriptEndTime < endTime then
    { s with lastTranscriptEndTime := endTime,
             slidingBuffer := trimSlidingBuffer s.slidingBuffer endTime }
  else s

/-- The body shared by the send loops of enqueueAudio (main.ts lines
520-530) and of the reconnect queue drain (lines 481-490): record the
chunk under the next sequence number, hand it to the transport, and (in
enqueueAudio only) record it in the sliding buffer.  `withSlide`
distinguishes the two loops. -/
def sendChunk (s : S) (chunk : List Int) (now : Nat) (withSlide : Bool) : S :=
  let s1 := { s with pendingChunks := mapSet s.pendingChunks s.nextSeqNo (chunk, now),
                     nextSeqNo := s.nextSeqNo + 1,
                     sendLog := s.sendLog ++ [chunk],
                     epochSendLog := s.epochSendLog ++ [chunk] }
  if withSlide then addToSlidingBuffer s1 chunk else s1

/-- Sending a chunk does not touch the sample counter. -/
lemma sendChunk_queuedSamples (s : S) (c : List Int) (now : Nat) (b : Bool) :
    (sendChunk s c now b).queuedSamples = s.queuedSamples := by
  cases b <;> rfl

/-- The counter returned by a successful dequeue is strictly smaller. -/
lemma dequeueChunk_counter_lt (q : List (List Int)) (qs : Int)
    (h : (CHUNK_SAMPLES : Int) ≤ qs) :
    (dequeueChunk q qs).2.2.toNat < qs.toNat := by
  have h8 : (CHUNK_SAMPLES : Int) = 800 := rfl
  rw [dequeueChunk, if_neg (by omega)]
  simp only
  split <;> omega

/-- The send loop of enqueueAudio (main.ts lines 520-530): while at least a
full chunk is buffered, dequeue it, send it and record it in the sliding
buffer. -/
def streamLoop (s : S) (now : Nat) : S :=
  if h : (CHUNK_SAMPLES : Int) ≤ s.queuedSamples then
    let r := dequeueChunk s.audioBufferQueue s.queuedSamples
    match r.1 with
    | none => s
    | some c =>
        streamLoop (sendChunk { s with audioBufferQueue := r.2.1,
                                       queuedSamples := r.2.2 } c now true) now
  else s
termination_by s.queuedSamples.toNat
decreasing_by
  rw [sendChunk_queuedSamples]
  exact dequeueChunk_counter_lt s.audioBufferQueue s.queuedSamples h

/-- The queue-drain loop of reconnectSession (main.ts lines 481-490): same
as the enqueueAudio send loop, except that drained chunks are not recorded
in the sliding buffer, and the loop also stops if `client` is null. -/
def drainLoop (s : S) (now : Nat) : S :=
  if h : (CHUNK_SAMPLES : Int) ≤ s.queuedSamples then
    let r := dequeueChunk s.audioBufferQueue s.queuedSamples
    match r.1 with
    | none => s
    | some c =>
        if s.client then
          drainLoop (sendChunk { s with audioBufferQueue := r.2.1,
                                        queuedSamples := r.2.2 } c now false) now
        else s
  else s
termination_by s.queuedSamples.toNat
decreasing_by
  rw [sendChunk_queuedSamples]
  exact dequeueChunk_counter_lt s.audioBufferQueue s.queuedSamples h

/-- The replay loop of reconnectSession (main.ts lines 468-477): send each
drained sliding-buffer chunk through the fresh tracker and record it back
into the new epoch's sliding buffer, stopping if `client` is null. -/
def replayLoop (s : S) (chunks : List (List Int)) (now : Nat) : S :=
  match chunks with
  | [] => s
  | c :: rest =>
      if s.client then replayLoop (sendChunk s c now true) rest now
      else s

/-- enqueueAudio (main.ts lines 509-534): append the frame and bump the
counter; unless the client is null, the session is stopped or a reconnect
is in progress, drain and send all full chunks. -/
def enqueueAudio (s : S) (samples : List Int) (now : Nat) : S :=
  if samples.length = 0 then s
  else
    let s1 := { s with audioBufferQueue := s.audioBufferQueue ++ [samples],
                       queuedSamples := s.queuedSamples + (samples.length : Int) }
    if ¬s1.client ∨ s1.sessionStopped ∨ s1.isReconnecting then s1
    else streamLoop s1 now

/-- The synchronous prefix of reconnectSession (main.ts lines 401-443), up
to the `await fetchJwt()`: drop duplicate triggers while already
reconnecting; otherwise drain the sliding buffer into the coroutine's
replay list, save and clear the audio queue, reset the virtual clock, the
pending mapping and the sequence counter, and cancel the health check. -/
def reconnectSessionBegin (s : S) : S :=
  if s.isReconnecting then s
  else
    { s with isReconnecting := true,
             slidingBuffer := [],
             lastTranscriptEndTime := 0,
             currentAudioTimestamp := 0,
             savedQueuedSamples := s.queuedSamples,
             audioBufferQueue := [],
             queuedSamples := 0,
             pendingChunks := [],
             nextSeqNo := 1,
             healthCheckOn := false,
             epochSendLog := [],
             reconCont := s.reconCont ++
               [⟨s.slidingBuffer.map Prod.fst, s.audioBufferQueue⟩] }

/-- The resumption of reconnectSession after all its awaits succeed
(main.ts lines 446-494): install the fresh client, prepend the saved queue
to whatever accumulated while reconnecting, add the saved sample count,
clear the reconnecting flag, send the replay chunks, drain and send the
restored queue, and restart the health check.  Note that nothing here
consults `sessionStopped`. -/
def reconnectSessionEnd (s : S) (c : Cont) (now : Nat) : S :=
  let s1 := { s with client := true,
                     audioBufferQueue := c.savedQueue ++ s.audioBufferQueue,
                     queuedSamples := s.savedQueuedSamples + s.queuedSamples,
                     isReconnecting := false }
  let s2 := replayLoop s1 c.replayChunks now
  let s3 := drainLoop s2 now
  { s3 with healthCheckOn := true }

/-- stopSession (main.ts lines 170-204): set the stopped flag, close the
audio context and recorder, clear every queue, the pending mapping, the
sliding buffer and the virtual clock, reset the sequence counter and the
reconnecting flag, and cancel the health check.  The `client` variable is
not nulled, `savedQueuedSamples` is not reset, and any suspended reconnect
coroutine keeps running. -/
def stopSession (s : S) : S :=
  { s with sessionStopped := true,
           audioContextLive := false,
           audioBufferQueue := [],
           queuedSamples := 0,
           pendingChunks := [],
           nextSeqNo := 1,
           isReconnecting := false,
           slidingBuffer := [],
           lastTranscriptEndTime := 0,
           currentAudioTimestamp := 0,
           healthCheckOn := false,
           epochSendLog := [] }

/-- One tick of the health-check interval (main.ts lines 292-303): skipped
when the interval has been cancelled, the client is null or the session is
stopped; otherwise, if any pending record is older than ACK_TIMEOUT_MS, it
triggers reconnectSession (whose synchronous prefix runs immediately) and
stops scanning. -/
def healthCheckTick (s : S) (now : Nat) : S :=
  if ¬s.healthCheckOn then s
  else if ¬s.client then s
  else if s.sessionStopped then s
  else if s.pendingChunks.any (fun e => (ACK_TIMEOUT_MS : Int) < (now : Int) - (e.2.2 : Int)) then
    reconnectSessionBegin s
  else s

/-- The events of the single-threaded cooperative event loop.  `audio` is
a resampled capture frame arriving at wall-clock time `now`; `ack` and
`transcript` are the AudioAdded and AddTranscript protocol messages;
`reconnectBegin` is a reconnect trigger (health-monitor timeout or a
socket closed/error event, both of which fire only while not stopped);
`reconnectFail` is a rejected credential fetch inside a suspended
reconnect; `reconnectEnd` is the successful resumption of a suspended
reconnect; `healthTick` is a timer tick; `stop` is the explicit stop
request. -/
inductive Event
  | audio (samples : List Int) (now : Nat)
  | ack (seqNo : Nat)
  | transcript (endTime : Rat)
  | reconnectBegin
  | reconnectFail
  | reconnectEnd (now : Nat)
  | healthTick (now : Nat)
  | stop
deriving DecidableEq, Repr

/-- The dispatch of one event on the session state. -/
def step (e : Event) (s : S) : S :=
  match e with
  | .audio samples now =>
      if s.sessionStopped ∨ ¬s.audioContextLive then s
      else enqueueAudio s samples now
  | .ack n => { s with pendingChunks := ackDeleteLoop s.pendingChunks n }
  | .transcript t => handleTranscript s t
  | .reconnectBegin => if s.sessionStopped then s else reconnectSessionBegin s
  | .reconnectFail => { s with reconCont := s.reconCont.drop 1 }
  | .reconnectEnd now =>
      match s.reconCont with
      | [] => s
      | c :: rest => reconnectSessionEnd { s with reconCont := rest } c now
  | .healthTick now => healthCheckTick s now
  | .stop => stopSession s

/-- Run a list of events in order. -/
def run (evs : List Event) (s : S) : S :=
  evs.foldl (fun s e => step e s) s

/-- The state right after a successful startSession: empty queues and
trackers, counter at 1, live client and audio context, health check
armed. -/
def initState : S :=
  { audioBufferQueue := [], queuedSamples := 0, nextSeqNo := 1,
    pendingChunks := [], client := true, sessionStopped := false,
    isReconnecting := false, audioContextLive := true, healthCheckOn := true,
    savedQueuedSamples := 0, slidingBuffer := [], lastTranscriptEndTime := 0,
    currentAudioTimestamp := 0, reconCont := [], sendLog := [],
    epochSendLog := [] }

/-- `isAudio e` holds when `e` is a capture-frame event. -/
def isAudio : Event → Bool
  | .audio _ _ => true
  | _ => false

/-- The nonempty frames carried by the audio events of a trace (empty
frames are dropped by enqueueAudio before they reach the queue). -/
def audioFrames (evs : List Event) : List (List Int) :=
  evs.filterMap (fun e =>
    match e with
    | .audio f _ => if f.length = 0 then none else some f
    | _ => none)

/-- The float-to-int16 conversion exactly as the specification words it:
clamp the sample to [-1, 1], then scale negative values by 32768 and
non-negative values by 32767 (asymmetric scaling), truncating to an
integer.  Compared against the implementation in `resampleTo16k` /
`floatTo16BitPCM`. -/
def int16FromSampleSpec (s : Rat) : Int :=
  let c := min 1 (max (-1) s)
  if c < 0 then truncQ (c * 32768) else truncQ (c * 32767)

/-- The bookkeeping invariant of the pipeline: the running counter
`queuedSamples` equals the total number of samples in `audioBufferQueue`;
the saved counter matches the saved queue of any suspended reconnect; and
a suspended reconnect exists only while `isReconnecting` or after a stop
(so at most one is ever pending). -/
def Inv (s : S) : Prop :=
  s.queuedSamples = sumLen s.audioBufferQueue ∧
  (∀ c ∈ s.reconCont, s.savedQueuedSamples = sumLen c.savedQueue) ∧
  (s.reconCont = [] ∨
    (s.reconCont.length = 1 ∧
      (s.isReconnecting = true ∨ s.sessionStopped = true)))

/-! Basic facts about the sample counter and the fill loop. -/

lemma sumLen_nil : sumLen [] = 0 := rfl

lemma sumLen_append (a b : List (List Int)) :
    sumLen (a ++ b) = sumLen a + sumLen b := by
  simp [sumLen]

lemma sumLen_cons (f : List Int) (q : List (List Int)) :
    sumLen (f :: q) = (f.length : Int) + sumLen q := by
  simp [sumLen]

lemma sumLen_eq_length_flatten (q : List (List Int)) :
    sumLen q = (q.flatten.length : Int) := by
  simp [sumLen, List.length_flatten]

lemma sumLen_nonneg (q : List (List Int)) : 0 ≤ sumLen q := by
  rw [sumLen_eq_length_flatten]; positivity

/-- The fill loop takes exactly the first `needed` samples of the flattened
queue and leaves exactly the rest, provided enough samples are buffered. -/
lemma fillChunk_join (needed : Nat) (q : List (List Int))
    (h : needed ≤ q.flatten.length) :
    (fillChunk needed q).1 = q.flatten.take needed ∧
    (fillChunk needed q).2.flatten = q.flatten.drop needed := by
  induction q generalizing needed with
  | nil =>
      simp at h
      simp [fillChunk, h]
  | cons f rest ih =>
      rw [fillChunk]
      by_cases h0 : needed = 0
      · simp [h0]
      · rw [if_neg h0]
        by_cases hf : f.length ≤ needed
        · rw [if_pos hf]
          have hrest : needed - f.length ≤ rest.flatten.length := by
            simp only [List.flatten_cons, List.length_append] at h; omega
          obtain ⟨ih1, ih2⟩ := ih (needed - f.length) hrest
          constructor
          · simp only [List.flatten_cons, List.take_append_eq_append_take,
              List.take_of_length_le hf, ih1]
          · simp only [List.flatten_cons, List.drop_append_eq_append_drop,
              List.drop_of_length_le hf, ih2, List.nil_append]
        · rw [if_neg hf]
          push_neg at hf
          constructor
          · simp only [List.flatten_cons, List.take_append_eq_append_take,
              Nat.sub_eq_zero_of_le hf.le, List.take_zero, List.append_nil]
          · simp only [List.flatten_cons, List.drop_append_eq_append_drop,
              Nat.sub_eq_zero_of_le hf.le, List.drop_zero]

/-- On queues whose frames are all nonempty (which every reachable queue
satisfies, since enqueueAudio drops empty frames and splitting leaves a
nonempty leftover), the remainder of the fill loop is exactly the
specification-level front split. -/
lemma fillChunk_snd_eq_splitFront (needed : Nat) (q : List (List Int))
    (hne : ∀ f ∈ q, f ≠ []) :
    (fillChunk needed q).2 = splitFront needed q := by
  induction q generalizing needed with
  | nil => simp [fillChunk, splitFront]
  | cons f rest ih =>
      rw [fillChunk, splitFront]
      by_cases h0 : needed = 0
      · subst h0
        have hfne := hne f (by simp)
        have hf : ¬f.length ≤ 0 := by
          simpa [List.length_eq_zero] using hfne
        simp [hf]
      · rw [if_neg h0]
        by_cases hf : f.length ≤ needed
        · rw [if_pos hf, if_pos hf]
          exact ih _ (fun g hg => hne g (by simp [hg]))
        · rw [if_neg hf, if_neg hf]

/-- All frames produced by the fill loop's remainder are nonempty when the
input frames are. -/
lemma splitFront_ne_nil (needed : Nat) (q : List (List Int))
    (hne : ∀ f ∈ q, f ≠ []) :
    ∀ f ∈ splitFront needed q, f ≠ [] := by
  induction q generalizing needed with
  | nil => simp [splitFront]
  | cons f rest ih =>
      rw [splitFront]
      by_cases hf : f.length ≤ needed
      · rw [if_pos hf]
        exact ih _ (fun g hg => hne g (by simp [hg]))
      · rw [if_neg hf]
        intro g hg
        rcases List.mem_cons.mp hg with h | h
        · subst h
          have hpos : 0 < (f.drop needed).length := by
            simp only [List.length_drop]; omega
          exact List.length_pos.mp hpos
        · exact hne g (by simp [h])

/-- Greedy chunking of a concatenation: the chunks of the first part come
first, and the leftover of the first part is prepended to the second. -/
lemma greedyChunks_append (l m : List Int) :
    greedyChunks (l ++ m) = greedyChunks l ++ greedyChunks (greedyRest l ++ m) ∧
    greedyRest (l ++ m) = greedyRest (greedyRest l ++ m) := by
  have h8 : CHUNK_SAMPLES = 800 := rfl
  generalize hn : l.length = n
  induction n using Nat.strong_induction_on generalizing l with
  | _ n ih =>
    by_cases hl : CHUNK_SAMPLES ≤ l.length
    · have hlm : CHUNK_SAMPLES ≤ (l ++ m).length := by
        simp; omega
      have htake : (l ++ m).take CHUNK_SAMPLES = l.take CHUNK_SAMPLES := by
        rw [List.take_append_eq_append_take, Nat.sub_eq_zero_of_le hl,
          List.take_zero, List.append_nil]
      have hdrop : (l ++ m).drop CHUNK_SAMPLES = l.drop CHUNK_SAMPLES ++ m := by
        rw [List.drop_append_eq_append_drop, Nat.sub_eq_zero_of_le hl,
          List.drop_zero]
      have hlen : (l.drop CHUNK_SAMPLES).length < n := by
        simp [List.length_drop]; omega
      obtain ⟨ih1, ih2⟩ := ih _ hlen (l.drop CHUNK_SAMPLES) rfl
      have hGR : greedyRest l = greedyRest (l.drop CHUNK_SAMPLES) := by
        conv_lhs => rw [greedyRest]
        rw [if_pos hl]
      constructor
      · conv_lhs => rw [greedyChunks]
        rw [if_pos hlm, htake, hdrop, ih1, ← hGR]
        conv_rhs => rw [greedyChunks, if_pos hl]
        simp
      · conv_lhs => rw [greedyRest]
        rw [if_pos hlm, hdrop, ih2, ← hGR]
    · have hrest : greedyRest l = l := by rw [greedyRest, if_neg hl]
      have hchunks : greedyChunks l = [] := by rw [greedyChunks, if_neg hl]
      rw [hrest, hchunks]
      simp

/-! Characterization of dequeueChunk and of the three send loops. -/

/-- With fewer than CHUNK_SAMPLES samples counted, dequeueChunk reports no
chunk and changes nothing. -/
lemma dequeueChunk_lt (q : List (List Int)) (qs : Int)
    (h : qs < (CHUNK_SAMPLES : Int)) :
    dequeueChunk q qs = (none, q, qs) := by
  rw [dequeueChunk, if_pos h]

/-- With a correct counter of at least CHUNK_SAMPLES, dequeueChunk returns
exactly the first CHUNK_SAMPLES samples of the flattened queue, the fill
loop's remainder (whose flattening is the rest of the stream), and the
decremented counter (the defensive floor is not taken). -/
lemma dequeueChunk_ge (q : List (List Int)) (qs : Int)
    (hinv : qs = sumLen q) (h : (CHUNK_SAMPLES : Int) ≤ qs) :
    dequeueChunk q qs =
      (some (q.flatten.take CHUNK_SAMPLES), (fillChunk CHUNK_SAMPLES q).2,
        qs - (CHUNK_SAMPLES : Int)) ∧
    (fillChunk CHUNK_SAMPLES q).2.flatten = q.flatten.drop CHUNK_SAMPLES ∧
    sumLen (fillChunk CHUNK_SAMPLES q).2 = qs - (CHUNK_SAMPLES : Int) := by
  have hlen : CHUNK_SAMPLES ≤ q.flatten.length := by
    rw [hinv, sumLen_eq_length_flatten] at h
    exact_mod_cast h
  obtain ⟨h1, h2⟩ := fillChunk_join CHUNK_SAMPLES q hlen
  have htk : (q.flatten.take CHUNK_SAMPLES).length = CHUNK_SAMPLES :=
    List.length_take_of_le hlen
  refine ⟨?_, h2, ?_⟩
  · rw [dequeueChunk, if_neg (not_lt.mpr h)]
    simp only [h1, htk, Nat.sub_self, List.replicate_zero, List.append_nil]
    rw [if_neg (by omega)]
  · rw [sumLen_eq_length_flatten, h2, List.length_drop, hinv,
      sumLen_eq_length_flatten]
    omega

/-- With less than a full chunk counted, the enqueueAudio send loop exits
immediately. -/
lemma streamLoop_of_lt (s : S) (now : Nat)
    (hc : ¬(CHUNK_SAMPLES : Int) ≤ s.queuedSamples) : streamLoop s now = s := by
  rw [streamLoop, dif_neg hc]

/-- One unfolding of the enqueueAudio send loop on a state with a correct
counter of at least one full chunk. -/
lemma streamLoop_of_ge (s : S) (now : Nat)
    (hinv : s.queuedSamples = sumLen s.audioBufferQueue)
    (hc : (CHUNK_SAMPLES : Int) ≤ s.queuedSamples) :
    streamLoop s now =
      streamLoop
        { s with audioBufferQueue := (fillChunk CHUNK_SAMPLES s.audioBufferQueue).2,
                 queuedSamples := s.queuedSamples - (CHUNK_SAMPLES : Int),
                 pendingChunks := mapSet s.pendingChunks s.nextSeqNo
                   (s.audioBufferQueue.flatten.take CHUNK_SAMPLES, now),
                 nextSeqNo := s.nextSeqNo + 1,
                 sendLog := s.sendLog ++ [s.audioBufferQueue.flatten.take CHUNK_SAMPLES],
                 epochSendLog :=
                   s.epochSendLog ++ [s.audioBufferQueue.flatten.take CHUNK_SAMPLES],
                 slidingBuffer := s.slidingBuffer ++
                   [(s.audioBufferQueue.flatten.take CHUNK_SAMPLES,
                     s.currentAudioTimestamp)],
                 currentAudioTimestamp :=
                   s.currentAudioTimestamp + CHUNK_DURATION_S } now := by
  obtain ⟨hd, _, _⟩ := dequeueChunk_ge s.audioBufferQueue s.queuedSamples hinv hc
  conv_lhs => rw [streamLoop]
  rw [dif_pos hc]
  simp only [hd, sendChunk, addToSlidingBuffer]
  rfl

/-- The enqueueAudio send loop, on a state with a correct sample counter:
it sends (and records) the greedy chunks of the flattened queue in order,
leaves the leftover samples queued, keeps the counter correct and below a
full chunk, and touches no other control field. -/
lemma streamLoop_spec : ∀ (n : Nat) (s : S) (now : Nat),
    s.queuedSamples.toNat ≤ n →
    s.queuedSamples = sumLen s.audioBufferQueue →
    ∃ q2 pend nsq sb ts,
      streamLoop s now =
        { s with audioBufferQueue := q2,
                 queuedSamples := sumLen q2,
                 pendingChunks := pend,
                 nextSeqNo := nsq,
                 slidingBuffer := sb,
                 currentAudioTimestamp := ts,
                 sendLog := s.sendLog ++ greedyChunks s.audioBufferQueue.flatten,
                 epochSendLog :=
                   s.epochSendLog ++ greedyChunks s.audioBufferQueue.flatten } ∧
      q2.flatten = greedyRest s.audioBufferQueue.flatten ∧
      sumLen q2 < (CHUNK_SAMPLES : Int) := by
  have h8 : (CHUNK_SAMPLES : Int) = 800 := rfl
  intro n
  induction n with
  | zero =>
      intro s now hn hinv
      have hc : ¬(CHUNK_SAMPLES : Int) ≤ s.queuedSamples := by omega
      have hlt : s.audioBufferQueue.flatten.length < CHUNK_SAMPLES := by
        rw [hinv, sumLen_eq_length_flatten] at hc
        omega
      have hchunks : greedyChunks s.audioBufferQueue.flatten = [] := by
        rw [greedyChunks, if_neg (by omega)]
      have hrest : greedyRest s.audioBufferQueue.flatten =
          s.audioBufferQueue.flatten := by
        rw [greedyRest, if_neg (by omega)]
      refine ⟨s.audioBufferQueue, s.pendingChunks, s.nextSeqNo, s.slidingBuffer,
        s.currentAudioTimestamp, ?_, hrest.symm, by rw [← hinv]; omega⟩
      rw [streamLoop_of_lt s now hc]
      simp [hchunks, ← hinv]
  | succ n ih =>
      intro s now hn hinv
      by_cases hc : (CHUNK_SAMPLES : Int) ≤ s.queuedSamples
      · obtain ⟨hd, hflat, hsum⟩ :=
          dequeueChunk_ge s.audioBufferQueue s.queuedSamples hinv hc
        have hge : CHUNK_SAMPLES ≤ s.audioBufferQueue.flatten.length := by
          rw [hinv, sumLen_eq_length_flatten] at hc
          exact_mod_cast hc
        rw [streamLoop_of_ge s now hinv hc]
        obtain ⟨q2, pend, nsq, sb, ts, heq, hq2, hlt⟩ :=
          ih { s with audioBufferQueue := (fillChunk CHUNK_SAMPLES s.audioBufferQueue).2,
                      queuedSamples := s.queuedSamples - (CHUNK_SAMPLES : Int),
                      pendingChunks := mapSet s.pendingChunks s.nextSeqNo
                        (s.audioBufferQueue.flatten.take CHUNK_SAMPLES, now),
                      nextSeqNo := s.nextSeqNo + 1,
                      sendLog := s.sendLog ++
                        [s.audioBufferQueue.flatten.take CHUNK_SAMPLES],
                      epochSendLog := s.epochSendLog ++
                        [s.audioBufferQueue.flatten.take CHUNK_SAMPLES],
                      slidingBuffer := s.slidingBuffer ++
                        [(s.audioBufferQueue.flatten.take CHUNK_SAMPLES,
                          s.currentAudioTimestamp)],
                      currentAudioTimestamp :=
                        s.currentAudioTimestamp + CHUNK_DURATION_S }
            now (by simp; omega) (by simpa using hsum.symm)
        rw [heq]
        refine ⟨q2, pend, nsq, sb, ts, ?_, ?_, hlt⟩
        · have hgreedy : greedyChunks s.audioBufferQueue.flatten =
              s.audioBufferQueue.flatten.take CHUNK_SAMPLES ::
                greedyChunks (s.audioBufferQueue.flatten.drop CHUNK_SAMPLES) := by
            rw [greedyChunks, if_pos hge]
          simp [hgreedy, hflat]
        · rw [hq2]
          simp only [hflat]
          conv_rhs => rw [greedyRest, if_pos hge]
      · have hlt : s.audioBufferQueue.flatten.length < CHUNK_SAMPLES := by
          rw [hinv, sumLen_eq_length_flatten] at hc
          omega
        have hchunks : greedyChunks s.audioBufferQueue.flatten = [] := by
          rw [greedyChunks, if_neg (by omega)]
        have hrest : greedyRest s.audioBufferQueue.flatten =
            s.audioBufferQueue.flatten := by
          rw [greedyRest, if_neg (by omega)]
        refine ⟨s.audioBufferQueue, s.pendingChunks, s.nextSeqNo, s.slidingBuffer,
          s.currentAudioTimestamp, ?_, hrest.symm, by rw [← hinv]; omega⟩
        rw [streamLoop_of_lt s now hc]
        simp [hchunks, ← hinv]

/-- With less than a full chunk counted, the reconnect drain loop exits
immediately. -/
lemma drainLoop_of_lt (s : S) (now : Nat)
    (hc : ¬(CHUNK_SAMPLES : Int) ≤ s.queuedSamples) : drainLoop s now = s := by
  rw [drainLoop, dif_neg hc]

/-- One unfolding of the reconnect drain loop on a live-client state with a
correct counter of at least one full chunk. -/
lemma drainLoop_of_ge (s : S) (now : Nat)
    (hinv : s.queuedSamples = sumLen s.audioBufferQueue)
    (hc : (CHUNK_SAMPLES : Int) ≤ s.queuedSamples) (hcl : s.client = true) :
    drainLoop s now =
      drainLoop
        { s with audioBufferQueue := (fillChunk CHUNK_SAMPLES s.audioBufferQueue).2,
                 queuedSamples := s.queuedSamples - (CHUNK_SAMPLES : Int),
                 pendingChunks := mapSet s.pendingChunks s.nextSeqNo
                   (s.audioBufferQueue.flatten.take CHUNK_SAMPLES, now),
                 nextSeqNo := s.nextSeqNo + 1,
                 sendLog := s.sendLog ++ [s.audioBufferQueue.flatten.take CHUNK_SAMPLES],
                 epochSendLog :=
                   s.epochSendLog ++
                     [s.audioBufferQueue.flatten.take CHUNK_SAMPLES] } now := by
  obtain ⟨hd, _, _⟩ := dequeueChunk_ge s.audioBufferQueue s.queuedSamples hinv hc
  conv_lhs => rw [drainLoop]
  rw [dif_pos hc]
  simp only [hd, hcl, if_true, sendChunk]
  rfl

/-- The reconnect queue-drain loop, on a live-client state with a correct
sample counter: it sends the greedy chunks of the flattened queue in order
(without touching the sliding buffer or the virtual clock), leaves the
leftover samples queued, and keeps the counter correct and below a full
chunk. -/
lemma drainLoop_spec : ∀ (n : Nat) (s : S) (now : Nat),
    s.queuedSamples.toNat ≤ n →
    s.queuedSamples = sumLen s.audioBufferQueue →
    s.client = true →
    ∃ q2 pend nsq,
      drainLoop s now =
        { s with audioBufferQueue := q2,
                 queuedSamples := sumLen q2,
                 pendingChunks := pend,
                 nextSeqNo := nsq,
                 sendLog := s.sendLog ++ greedyChunks s.audioBufferQueue.flatten,
                 epochSendLog :=
                   s.epochSendLog ++ greedyChunks s.audioBufferQueue.flatten } ∧
      q2.flatten = greedyRest s.audioBufferQueue.flatten ∧
      sumLen q2 < (CHUNK_SAMPLES : Int) := by
  have h8 : (CHUNK_SAMPLES : Int) = 800 := rfl
  intro n
  induction n with
  | zero =>
      intro s now hn hinv hcl
      have hc : ¬(CHUNK_SAMPLES : Int) ≤ s.queuedSamples := by omega
      have hlt : s.audioBufferQueue.flatten.length < CHUNK_SAMPLES := by
        rw [hinv, sumLen_eq_length_flatten] at hc
        omega
      have hchunks : greedyChunks s.audioBufferQueue.flatten = [] := by
        rw [greedyChunks, if_neg (by omega)]
      have hrest : greedyRest s.audioBufferQueue.flatten =
          s.audioBufferQueue.flatten := by
        rw [greedyRest, if_neg (by omega)]
      refine ⟨s.audioBufferQueue, s.pendingChunks, s.nextSeqNo, ?_,
        hrest.symm, by rw [← hinv]; omega⟩
      rw [drainLoop_of_lt s now hc]
      simp [hchunks, ← hinv]
  | succ n ih =>
      intro s now hn hinv hcl
      by_cases hc : (CHUNK_SAMPLES : Int) ≤ s.queuedSamples
      · obtain ⟨hd, hflat, hsum⟩ :=
          dequeueChunk_ge s.audioBufferQueue s.queuedSamples hinv hc
        have hge : CHUNK_SAMPLES ≤ s.audioBufferQueue.flatten.length := by
          rw [hinv, sumLen_eq_length_flatten] at hc
          exact_mod_cast hc
        rw [drainLoop_of_ge s now hinv hc hcl]
        obtain ⟨q2, pend, nsq, heq, hq2, hlt⟩ :=
          ih { s with audioBufferQueue := (fillChunk CHUNK_SAMPLES s.audioBufferQueue).2,
                      queuedSamples := s.queuedSamples - (CHUNK_SAMPLES : Int),
                      pendingChunks := mapSet s.pendingChunks s.nextSeqNo
                        (s.audioBufferQueue.flatten.take CHUNK_SAMPLES, now),
                      nextSeqNo := s.nextSeqNo + 1,
                      sendLog := s.sendLog ++
                        [s.audioBufferQueue.flatten.take CHUNK_SAMPLES],
                      epochSendLog := s.epochSendLog ++
                        [s.audioBufferQueue.flatten.take CHUNK_SAMPLES] }
            now (by simp; omega) (by simpa using hsum.symm) hcl
        rw [heq]
        refine ⟨q2, pend, nsq, ?_, ?_, hlt⟩
        · have hgreedy : greedyChunks s.audioBufferQueue.flatten =
              s.audioBufferQueue.flatten.take CHUNK_SAMPLES ::
                greedyChunks (s.audioBufferQueue.flatten.drop CHUNK_SAMPLES) := by
            rw [greedyChunks, if_pos hge]
          simp [hgreedy, hflat]
        · rw [hq2]
          simp only [hflat]
          conv_rhs => rw [greedyRest, if_pos hge]
      · have hlt : s.audioBufferQueue.flatten.length < CHUNK_SAMPLES := by
          rw [hinv, sumLen_eq_length_flatten] at hc
          omega
        have hchunks : greedyChunks s.audioBufferQueue.flatten = [] := by
          rw [greedyChunks, if_neg (by omega)]
        have hrest : greedyRest s.audioBufferQueue.flatten =
            s.audioBufferQueue.flatten := by
          rw [greedyRest, if_neg (by omega)]
        refine ⟨s.audioBufferQueue, s.pendingChunks, s.nextSeqNo, ?_,
          hrest.symm, by rw [← hinv]; omega⟩
        rw [drainLoop_of_lt s now hc]
        simp [hchunks, ← hinv]

/-- The reconnect replay loop on a live-client state sends exactly the
replay chunks, in order, records each in the pending mapping and the
sliding buffer, and changes nothing else. -/
lemma replayLoop_spec : ∀ (chunks : List (List Int)) (s : S) (now : Nat),
    s.client = true →
    ∃ pend nsq sb ts,
      replayLoop s chunks now =
        { s with pendingChunks := pend,
                 nextSeqNo := nsq,
                 slidingBuffer := sb,
                 currentAudioTimestamp := ts,
                 sendLog := s.sendLog ++ chunks,
                 epochSendLog := s.epochSendLog ++ chunks } ∧
      sb.map Prod.fst = s.slidingBuffer.map Prod.fst ++ chunks := by
  intro chunks
  induction chunks with
  | nil =>
      intro s now hcl
      exact ⟨s.pendingChunks, s.nextSeqNo, s.slidingBuffer,
        s.currentAudioTimestamp, by simp [replayLoop], by simp⟩
  | cons c rest ih =>
      intro s now hcl
      obtain ⟨pend, nsq, sb, ts, heq, hsb⟩ := ih (sendChunk s c now true) now
        (by simp [sendChunk, addToSlidingBuffer, hcl])
      refine ⟨pend, nsq, sb, ts, ?_, ?_⟩
      · rw [replayLoop, if_pos hcl, heq]
        simp [sendChunk, addToSlidingBuffer]
      · rw [hsb]
        simp [sendChunk, addToSlidingBuffer]

/-! Runs made of audio events only. -/

lemma audioFrames_nil : audioFrames [] = [] := rfl

lemma audioFrames_cons_zero {f : List Int} {t : Nat} {rest : List Event}
    (h : f.length = 0) :
    audioFrames (Event.audio f t :: rest) = audioFrames rest := by
  have hf : f = [] := List.length_eq_zero.mp h
  subst hf
  simp [audioFrames, List.filterMap_cons]

lemma audioFrames_cons_pos {f : List Int} {t : Nat} {rest : List Event}
    (h : ¬f.length = 0) :
    audioFrames (Event.audio f t :: rest) = f :: audioFrames rest := by
  simp only [audioFrames, List.filterMap_cons, if_neg h]

/-- While a reconnect is in progress (and the session is not stopped),
arriving audio frames are appended to the queue and counted, and nothing
else changes — in particular nothing is sent. -/
lemma run_audio_reconnecting : ∀ (evs : List Event) (s : S),
    (∀ e ∈ evs, isAudio e = true) →
    s.isReconnecting = true → s.sessionStopped = false →
    s.audioContextLive = true →
    run evs s =
      { s with audioBufferQueue := s.audioBufferQueue ++ audioFrames evs,
               queuedSamples := s.queuedSamples + sumLen (audioFrames evs) } := by
  intro evs
  induction evs with
  | nil =>
      intro s _ _ _ _
      simp [run, audioFrames, sumLen]
  | cons e rest ih =>
      intro s hA hrec hstop hctx
      have he : isAudio e = true := hA e (by simp)
      match e, he with
      | .audio f t, _ =>
        have hrest : ∀ e ∈ rest, isAudio e = true := fun e h => hA e (by simp [h])
        rw [show run (Event.audio f t :: rest) s = run rest (step (.audio f t) s)
          from rfl]
        rw [show step (.audio f t) s = enqueueAudio s f t by
          simp [step, hstop, hctx]]
        by_cases hf : f.length = 0
        · rw [show enqueueAudio s f t = s by rw [enqueueAudio, if_pos hf]]
          rw [ih s hrest hrec hstop hctx, audioFrames_cons_zero hf]
        · have henq : enqueueAudio s f t =
              { s with audioBufferQueue := s.audioBufferQueue ++ [f],
                       queuedSamples := s.queuedSamples + (f.length : Int) } := by
            rw [enqueueAudio, if_neg hf]
            simp [hrec]
          rw [henq, ih _ hrest (by simp [hrec]) (by simp [hstop]) (by simp [hctx]),
            audioFrames_cons_pos hf]
          simp [sumLen_cons, List.append_assoc, add_assoc]

/-- A run of audio events from a streaming state (live client, not stopped,
not reconnecting, correct counter, less than a full chunk buffered) sends
exactly the greedy chunks of the leftover samples followed by the newly
produced frames, in production order. -/
lemma run_audio_streaming : ∀ (evs : List Event) (s : S),
    (∀ e ∈ evs, isAudio e = true) →
    s.sessionStopped = false → s.isReconnecting = false → s.client = true →
    s.audioContextLive = true →
    s.queuedSamples = sumLen s.audioBufferQueue →
    s.queuedSamples < (CHUNK_SAMPLES : Int) →
    ∃ q2 pend nsq sb ts,
      run evs s =
        { s with audioBufferQueue := q2,
                 queuedSamples := sumLen q2,
                 pendingChunks := pend,
                 nextSeqNo := nsq,
                 slidingBuffer := sb,
                 currentAudioTimestamp := ts,
                 sendLog := s.sendLog ++
                   greedyChunks (s.audioBufferQueue.flatten ++
                     (audioFrames evs).flatten),
                 epochSendLog := s.epochSendLog ++
                   greedyChunks (s.audioBufferQueue.flatten ++
                     (audioFrames evs).flatten) } ∧
      q2.flatten = greedyRest (s.audioBufferQueue.flatten ++
        (audioFrames evs).flatten) ∧
      sumLen q2 < (CHUNK_SAMPLES : Int) := by
  intro evs
  induction evs with
  | nil =>
      intro s _ hstop hrec hcl hctx hinv hlt
      have hchunks : greedyChunks s.audioBufferQueue.flatten = [] := by
        rw [greedyChunks, if_neg (by
          rw [hinv, sumLen_eq_length_flatten] at hlt; omega)]
      have hrest : greedyRest s.audioBufferQueue.flatten =
          s.audioBufferQueue.flatten := by
        rw [greedyRest, if_neg (by
          rw [hinv, sumLen_eq_length_flatten] at hlt; omega)]
      refine ⟨s.audioBufferQueue, s.pendingChunks, s.nextSeqNo, s.slidingBuffer,
        s.currentAudioTimestamp, ?_, ?_, by rw [← hinv]; exact hlt⟩
      · simp [run, audioFrames_nil, hchunks, ← hinv]
      · simp [audioFrames_nil, hrest]
  | cons e rest ih =>
      intro s hA hstop hrec hcl hctx hinv hlt
      have he : isAudio e = true := hA e (by simp)
      match e, he with
      | .audio f t, _ =>
        have hrest : ∀ e ∈ rest, isAudio e = true := fun e h => hA e (by simp [h])
        rw [show run (Event.audio f t :: rest) s = run rest (step (.audio f t) s)
          from rfl]
        rw [show step (.audio f t) s = enqueueAudio s f t by
          simp [step, hstop, hctx]]
        by_cases hf : f.length = 0
        · rw [show enqueueAudio s f t = s by rw [enqueueAudio, if_pos hf]]
          obtain ⟨q2, pend, nsq, sb, ts, heq, hq2, hql⟩ :=
            ih s hrest hstop hrec hcl hctx hinv hlt
          exact ⟨q2, pend, nsq, sb, ts,
            by rw [heq, audioFrames_cons_zero hf],
            by rwa [audioFrames_cons_zero hf], hql⟩
        · have henq : enqueueAudio s f t =
              streamLoop
                { s with
                  audioBufferQueue := s.audioBufferQueue ++ [f],
                  queuedSamples := s.queuedSamples + (f.length : Int) } t := by
            rw [enqueueAudio, if_neg hf]
            simp [hrec, hstop, hcl]
          have hinv1 :
              ({ s with
                 audioBufferQueue := s.audioBufferQueue ++ [f],
                 queuedSamples := s.queuedSamples + (f.length : Int) } :
                  S).queuedSamples =
              sumLen
                ({ s with
                   audioBufferQueue := s.audioBufferQueue ++ [f],
                   queuedSamples := s.queuedSamples + (f.length : Int) } :
                    S).audioBufferQueue := by
            simp [sumLen_append, sumLen_cons, sumLen_nil, hinv]
          obtain ⟨qm, pendm, nsqm, sbm, tsm, heqm, hqm, hqlm⟩ :=
            streamLoop_spec _ _ t le_rfl hinv1
          rw [henq, heqm]
          obtain ⟨q2, pend, nsq, sb, ts, heq, hq2, hql⟩ :=
            ih { s with
                 audioBufferQueue := qm,
                 queuedSamples := sumLen qm,
                 pendingChunks := pendm,
                 nextSeqNo := nsqm,
                 slidingBuffer := sbm,
                 currentAudioTimestamp := tsm,
                 sendLog := s.sendLog ++
                   greedyChunks (s.audioBufferQueue ++ [f]).flatten,
                 epochSendLog := s.epochSendLog ++
                   greedyChunks (s.audioBufferQueue ++ [f]).flatten }
              hrest (by simp [hstop]) (by simp [hrec]) (by simp [hcl])
              (by simp [hctx]) (by simp) (by simpa using hqlm)
          rw [heq]
          have hl : (s.audioBufferQueue ++ [f]).flatten =
              s.audioBufferQueue.flatten ++ f := by simp
          simp only [hl] at hqm hq2 ⊢
          obtain ⟨hGC, hGR⟩ := greedyChunks_append
            (s.audioBufferQueue.flatten ++ f) (audioFrames rest).flatten
          have hframes : s.audioBufferQueue.flatten ++
              (audioFrames (Event.audio f t :: rest)).flatten =
              (s.audioBufferQueue.flatten ++ f) ++ (audioFrames rest).flatten := by
            rw [audioFrames_cons_pos hf]
            simp [List.append_assoc]
          refine ⟨q2, pend, nsq, sb, ts, ?_, ?_, hql⟩
          · rw [hframes, hGC, hqm]
            simp [List.append_assoc]
          · rw [hframes, hGR, ← hqm]
            exact hq2

/-! The cumulative-acknowledgment loop. -/

/-- Running the deletion loop for i = 1 .. n deletes exactly the entries
with key between 1 and n. -/
lemma ackDeleteLoop_eq_filter (m : List (Nat × List Int × Nat)) :
    ∀ n : Nat, ackDeleteLoop m n =
      m.filter (fun e => ¬(1 ≤ e.1 ∧ e.1 ≤ n)) := by
  intro n
  induction n with
  | zero =>
      rw [ackDeleteLoop, if_pos rfl]
      rw [List.filter_congr (q := fun _ => true) (by intro x _; simp; omega)]
      exact (List.filter_true m).symm
  | succ n ih =>
      rw [ackDeleteLoop, if_neg (Nat.succ_ne_zero n)]
      rw [show n + 1 - 1 = n from rfl, mapDelete, ih, List.filter_filter]
      refine List.filter_congr ?_
      intro x _
      by_cases ha : 1 ≤ x.1 ∧ x.1 ≤ n
      · by_cases hb : x.1 = n + 1
        · exact absurd hb (by omega)
        · have hc : 1 ≤ x.1 ∧ x.1 ≤ n + 1 := by omega
          simp [ha, hb, hc]
      · by_cases hb : x.1 = n + 1
        · have hc : 1 ≤ x.1 ∧ x.1 ≤ n + 1 := by omega
          simp [ha, hb, hc]
        · have hc : ¬(1 ≤ x.1 ∧ x.1 ≤ n + 1) := by omega
          simp [ha, hb, hc]

/-! The successful resumption of a reconnect. -/

/-- The resumption of a suspended reconnect: it restores the saved queue in
front of whatever accumulated while reconnecting, sends the replay chunks
first and then the greedy chunks of the restored queue, clears the
reconnecting flag, installs the fresh client and re-arms the health check.
Stated for a state whose restored counter is correct. -/
lemma reconnectEnd_spec (s : S) (c : Cont) (rest : List Cont) (t : Nat)
    (hcont : s.reconCont = c :: rest)
    (hinv : s.savedQueuedSamples + s.queuedSamples =
      sumLen (c.savedQueue ++ s.audioBufferQueue)) :
    ∃ q2 pend nsq sb ts,
      step (.reconnectEnd t) s =
        { s with client := true,
                 isReconnecting := false,
                 healthCheckOn := true,
                 reconCont := rest,
                 audioBufferQueue := q2,
                 queuedSamples := sumLen q2,
                 pendingChunks := pend,
                 nextSeqNo := nsq,
                 slidingBuffer := sb,
                 currentAudioTimestamp := ts,
                 sendLog := s.sendLog ++ c.replayChunks ++
                   greedyChunks (c.savedQueue ++ s.audioBufferQueue).flatten,
                 epochSendLog := s.epochSendLog ++ c.replayChunks ++
                   greedyChunks (c.savedQueue ++ s.audioBufferQueue).flatten } ∧
      q2.flatten = greedyRest (c.savedQueue ++ s.audioBufferQueue).flatten ∧
      sumLen q2 < (CHUNK_SAMPLES : Int) ∧
      sb.map Prod.fst = s.slidingBuffer.map Prod.fst ++ c.replayChunks := by
  have hstep : step (.reconnectEnd t) s =
      reconnectSessionEnd { s with reconCont := rest } c t := by
    simp only [step, hcont]
  rw [hstep, reconnectSessionEnd]
  obtain ⟨pendr, nsqr, sbr, tsr, heqr, hsbr⟩ :=
    replayLoop_spec c.replayChunks
      { s with reconCont := rest,
               client := true,
               audioBufferQueue := c.savedQueue ++ s.audioBufferQueue,
               queuedSamples := s.savedQueuedSamples + s.queuedSamples,
               isReconnecting := false } t rfl
  rw [heqr]
  obtain ⟨q2, pendd, nsqd, heqd, hq2, hql⟩ :=
    drainLoop_spec
      (s.savedQueuedSamples + s.queuedSamples).toNat
      { s with reconCont := rest,
               client := true,
               audioBufferQueue := c.savedQueue ++ s.audioBufferQueue,
               queuedSamples := s.savedQueuedSamples + s.queuedSamples,
               isReconnecting := false,
               pendingChunks := pendr,
               nextSeqNo := nsqr,
               slidingBuffer := sbr,
               currentAudioTimestamp := tsr,
               sendLog := s.sendLog ++ c.replayChunks,
               epochSendLog := s.epochSendLog ++ c.replayChunks }
      t le_rfl (by simpa using hinv) rfl
  rw [heqd]
  refine ⟨q2, pendd, nsqd, sbr, tsr, ?_, by simpa using hq2, hql,
    by simpa using hsbr⟩
  simp [List.append_assoc]

/-! Preservation of the bookkeeping invariant. -/

lemma inv_reconnectSessionBegin (s : S) (h : Inv s)
    (hstop : s.sessionStopped = false) :
    Inv (reconnectSessionBegin s) := by
  obtain ⟨h1, h2, h3⟩ := h
  by_cases hrec : s.isReconnecting
  · rw [reconnectSessionBegin, if_pos hrec]
    exact ⟨h1, h2, h3⟩
  · rw [reconnectSessionBegin, if_neg hrec]
    have hcont : s.reconCont = [] := by
      rcases h3 with h3 | ⟨_, h3 | h3⟩
      · exact h3
      · exact absurd h3 (by simpa using hrec)
      · rw [hstop] at h3; cases h3
    refine ⟨by simp [sumLen_nil], ?_, ?_⟩
    · intro c hc
      simp only [hcont, List.nil_append, List.mem_singleton] at hc
      subst hc
      simpa using h1
    · right
      simp [hcont]

lemma inv_step (e : Event) (s : S) (h : Inv s) : Inv (step e s) := by
  obtain ⟨h1, h2, h3⟩ := h
  cases e with
  | audio f t =>
      simp only [step]
      by_cases hg : s.sessionStopped ∨ ¬s.audioContextLive
      · rw [if_pos hg]
        exact ⟨h1, h2, h3⟩
      · rw [if_neg hg]
        by_cases hf : f.length = 0
        · rw [enqueueAudio, if_pos hf]
          exact ⟨h1, h2, h3⟩
        · simp only [enqueueAudio, if_neg hf]
          split
          · exact ⟨by simp [sumLen_append, sumLen_cons, sumLen_nil, h1], h2, h3⟩
          · obtain ⟨q2, pend, nsq, sb, ts, heq, hq2f, hql⟩ :=
              streamLoop_spec
                ({ s with
                   audioBufferQueue := s.audioBufferQueue ++ [f],
                   queuedSamples := s.queuedSamples +
                     (f.length : Int) } : S).queuedSamples.toNat
                { s with
                  audioBufferQueue := s.audioBufferQueue ++ [f],
                  queuedSamples := s.queuedSamples + (f.length : Int) }
                t le_rfl
                (by simp [sumLen_append, sumLen_cons, sumLen_nil, h1])
            rw [heq]
            exact ⟨by simp, by simpa using h2, by simpa using h3⟩
  | ack n =>
      exact ⟨h1, h2, h3⟩
  | transcript q =>
      simp only [step, handleTranscript]
      split
      · exact ⟨h1, h2, h3⟩
      · exact ⟨h1, h2, h3⟩
  | reconnectBegin =>
      simp only [step]
      by_cases hstop : s.sessionStopped
      · rw [if_pos hstop]
        exact ⟨h1, h2, h3⟩
      · rw [if_neg hstop]
        exact inv_reconnectSessionBegin s ⟨h1, h2, h3⟩ (by simpa using hstop)
  | reconnectFail =>
      simp only [step]
      refine ⟨h1, ?_, ?_⟩
      · intro c hc
        exact h2 c (List.mem_of_mem_drop hc)
      · rcases h3 with h3 | ⟨h3, _⟩
        · left; simp [h3]
        · left
          rw [List.drop_eq_nil_iff]
          omega
  | reconnectEnd t =>
      cases hcont : s.reconCont with
      | nil =>
          rw [show step (.reconnectEnd t) s = s by simp [step, hcont]]
          exact ⟨h1, h2, Or.inl hcont⟩
      | cons c rest =>
          have hrest : rest = [] := by
            rcases h3 with h3 | ⟨h3, _⟩
            · rw [hcont] at h3; cases h3
            · rw [hcont] at h3
              simpa using h3
          subst hrest
          obtain ⟨q2, pend, nsq, sb, ts, heq, hq2, hql, _⟩ :=
            reconnectEnd_spec s c [] t hcont
              (by rw [sumLen_append, h1, h2 c (by simp [hcont])])
          rw [heq]
          exact ⟨by simp, by simp, by simp⟩
  | healthTick t =>
      simp only [step, healthCheckTick]
      by_cases hhc : ¬s.healthCheckOn
      · rw [if_pos hhc]; exact ⟨h1, h2, h3⟩
      · rw [if_neg hhc]
        by_cases hcl : ¬s.client
        · rw [if_pos hcl]; exact ⟨h1, h2, h3⟩
        · rw [if_neg hcl]
          by_cases hstop : s.sessionStopped
          · rw [if_pos hstop]; exact ⟨h1, h2, h3⟩
          · rw [if_neg hstop]
            by_cases hstale : s.pendingChunks.any
                (fun e => (ACK_TIMEOUT_MS : Int) < (t : Int) - (e.2.2 : Int))
            · rw [if_pos hstale]
              exact inv_reconnectSessionBegin s ⟨h1, h2, h3⟩ (by simpa using hstop)
            · rw [if_neg hstale]; exact ⟨h1, h2, h3⟩
  | stop =>
      simp only [step]
      refine ⟨by simp [stopSession, sumLen_nil], ?_, ?_⟩
      · intro c hc
        simp only [stopSession] at hc ⊢
        exact h2 c hc
      · rcases h3 with h3 | ⟨h3, _⟩
        · left; simp [stopSession, h3]
        · right
          exact ⟨by simpa [stopSession] using h3, Or.inr rfl⟩

lemma inv_run_of : ∀ (evs : List Event) (s : S), Inv s → Inv (run evs s) := by
  intro evs
  induction evs with
  | nil => intro s h; exact h
  | cons e rest ih =>
      intro s h
      exact ih (step e s) (inv_step e s h)

/-- The invariant holds in every reachable state. -/
lemma inv_run (evs : List Event) : Inv (run evs initState) := by
  refine inv_run_of evs initState ⟨rfl, ?_, Or.inl rfl⟩
  intro c hc
  simp [initState] at hc

/-- Projection-level consequences of `reconnectEnd_spec`, convenient for
chaining with further runs. -/
lemma reconnectEnd_fields (s : S) (c : Cont) (rest : List Cont) (t : Nat)
    (hcont : s.reconCont = c :: rest)
    (hinv : s.savedQueuedSamples + s.queuedSamples =
      sumLen (c.savedQueue ++ s.audioBufferQueue)) :
    (step (.reconnectEnd t) s).sendLog =
      s.sendLog ++ c.replayChunks ++
        greedyChunks (c.savedQueue ++ s.audioBufferQueue).flatten ∧
    (step (.reconnectEnd t) s).sessionStopped = s.sessionStopped ∧
    (step (.reconnectEnd t) s).isReconnecting = false ∧
    (step (.reconnectEnd t) s).client = true ∧
    (step (.reconnectEnd t) s).audioContextLive = s.audioContextLive ∧
    (step (.reconnectEnd t) s).queuedSamples =
      sumLen (step (.reconnectEnd t) s).audioBufferQueue ∧
    (step (.reconnectEnd t) s).queuedSamples < (CHUNK_SAMPLES : Int) ∧
    (step (.reconnectEnd t) s).audioBufferQueue.flatten =
      greedyRest (c.savedQueue ++ s.audioBufferQueue).flatten ∧
    (step (.reconnectEnd t) s).healthCheckOn = true ∧
    (step (.reconnectEnd t) s).epochSendLog =
      s.epochSendLog ++ c.replayChunks ++
        greedyChunks (c.savedQueue ++ s.audioBufferQueue).flatten ∧
    (step (.reconnectEnd t) s).slidingBuffer.map Prod.fst =
      s.slidingBuffer.map Prod.fst ++ c.replayChunks := by
  obtain ⟨q2, pend, nsq, sb, ts, heq, hq2, hql, hsb⟩ :=
    reconnectEnd_spec s c rest t hcont hinv
  rw [heq]
  exact ⟨rfl, rfl, rfl, rfl, rfl, rfl, hql, hq2, rfl, rfl, hsb⟩

/-- The send log of a run of audio events from a streaming state. -/
lemma run_audio_streaming_sendLog (evs : List Event) (s : S)
    (hA : ∀ e ∈ evs, isAudio e = true)
    (hstop : s.sessionStopped = false) (hrec : s.isReconnecting = false)
    (hcl : s.client = true) (hctx : s.audioContextLive = true)
    (hinv : s.queuedSamples = sumLen s.audioBufferQueue)
    (hlt : s.queuedSamples < (CHUNK_SAMPLES : Int)) :
    (run evs s).sendLog = s.sendLog ++
      greedyChunks (s.audioBufferQueue.flatten ++ (audioFrames evs).flatten) := by
  obtain ⟨q2, pend, nsq, sb, ts, heq, _, _⟩ :=
    run_audio_streaming evs s hA hstop hrec hcl hctx hinv hlt
  rw [heq]

/-! Claim theorems. -/

/-- C1: for every acknowledgment message carrying sequence number n
received while records are pending, processing it removes exactly the
pending delivery records with sequence number at most n and leaves every
pending record with sequence number above n in place (cumulative
acknowledgment semantics), for every pending mapping whose keys are
genuine sequence numbers (at least 1, as assigned by the tracker). -/
theorem c1_cumulative_ack (s : S) (n : Nat)
    (hkeys : ∀ e ∈ s.pendingChunks, 1 ≤ e.1) :
    (step (.ack n) s).pendingChunks =
      s.pendingChunks.filter (fun e => n < e.1) := by
  show ackDeleteLoop s.pendingChunks n = _
  rw [ackDeleteLoop_eq_filter]
  refine List.filter_congr ?_
  intro x hx
  have hx1 := hkeys x hx
  by_cases h : n < x.1
  · have h2 : ¬(1 ≤ x.1 ∧ x.1 ≤ n) := by omega
    simp [h, h2]
  · have h2 : 1 ≤ x.1 ∧ x.1 ≤ n := by omega
    simp [h, h2]

theorem c1_cumulative_ack_witness :
    (∀ e ∈ ({ initState with
        pendingChunks := [(1, [], 0), (2, [], 0), (3, [], 0)] } : S).pendingChunks,
      1 ≤ e.1) ∧
    (step (.ack 2) { initState with
        pendingChunks := [(1, [], 0), (2, [], 0), (3, [], 0)] }).pendingChunks =
      ({ initState with
         pendingChunks := [(1, [], 0), (2, [], 0), (3, [], 0)] } :
          S).pendingChunks.filter (fun e => 2 < e.1) :=
  ⟨by decide,
   c1_cumulative_ack
     { initState with pendingChunks := [(1, [], 0), (2, [], 0), (3, [], 0)] } 2
     (by decide)⟩

/-- C6: dequeueChunk returns no chunk when fewer than CHUNK_SAMPLES = 800
samples are buffered (leaving the queue untouched), and with at least 800
samples buffered it returns exactly one chunk of exactly 800 samples taken
from the front of the backlog, leaving as the new queue the front split of
the backlog (whole frames consumed, a straddling frame split with its
leftover as the new first element), which carries exactly the remaining
samples. -/
theorem c6_dequeue_boundary (q : List (List Int)) (qs : Int)
    (hinv : qs = sumLen q) (hne : ∀ f ∈ q, f ≠ []) :
    (qs < (CHUNK_SAMPLES : Int) → dequeueChunk q qs = (none, q, qs)) ∧
    ((CHUNK_SAMPLES : Int) ≤ qs →
      dequeueChunk q qs =
        (some (q.flatten.take CHUNK_SAMPLES), splitFront CHUNK_SAMPLES q,
          qs - (CHUNK_SAMPLES : Int)) ∧
      (q.flatten.take CHUNK_SAMPLES).length = CHUNK_SAMPLES ∧
      (splitFront CHUNK_SAMPLES q).flatten = q.flatten.drop CHUNK_SAMPLES) := by
  constructor
  · intro h
    exact dequeueChunk_lt q qs h
  · intro h
    obtain ⟨hd, hflat, _⟩ := dequeueChunk_ge q qs hinv h
    have hsf := fillChunk_snd_eq_splitFront CHUNK_SAMPLES q hne
    have hlen : CHUNK_SAMPLES ≤ q.flatten.length := by
      rw [hinv, sumLen_eq_length_flatten] at h
      exact_mod_cast h
    refine ⟨by rw [hd, hsf], List.length_take_of_le hlen, by rw [← hsf]; exact hflat⟩

set_option maxRecDepth 10000 in
theorem c6_dequeue_boundary_witness :
    ((1000 : Int) = sumLen [List.replicate 500 1, List.replicate 500 2] ∧
     (∀ f ∈ [List.replicate 500 (1 : Int), List.replicate 500 2], f ≠ [])) ∧
    ((CHUNK_SAMPLES : Int) ≤ 1000 →
      dequeueChunk [List.replicate 500 1, List.replicate 500 2] 1000 =
        (some (([List.replicate 500 (1 : Int),
            List.replicate 500 2].flatten).take CHUNK_SAMPLES),
          splitFront CHUNK_SAMPLES [List.replicate 500 1, List.replicate 500 2],
          1000 - (CHUNK_SAMPLES : Int)) ∧
      (([List.replicate 500 (1 : Int),
          List.replicate 500 2].flatten).take CHUNK_SAMPLES).length =
        CHUNK_SAMPLES ∧
      (splitFront CHUNK_SAMPLES
          [List.replicate 500 1, List.replicate 500 2]).flatten =
        ([List.replicate 500 (1 : Int),
          List.replicate 500 2].flatten).drop CHUNK_SAMPLES) :=
  ⟨⟨by decide, by decide⟩,
   (c6_dequeue_boundary [List.replicate 500 1, List.replicate 500 2] 1000
     (by decide) (by decide)).2⟩

/-- C8: while a reconnect is already in progress, a second reconnect
trigger — whether a direct reconnectSession invocation from the
transport-close handler or a health-monitor tick — is a no-op: the session
state is returned unchanged, so only one new epoch is established per
reconnect. -/
theorem c8_reconnect_reentrancy (s : S) (h : s.isReconnecting = true) :
    step .reconnectBegin s = s ∧ ∀ t : Nat, step (.healthTick t) s = s := by
  have hb : reconnectSessionBegin s = s := by
    rw [reconnectSessionBegin, if_pos h]
  constructor
  · simp only [step, hb, ite_self]
  · intro t
    simp only [step, healthCheckTick, hb, ite_self]

theorem c8_reconnect_reentrancy_witness :
    ({ initState with isReconnecting := true } : S).isReconnecting = true ∧
    step .reconnectBegin { initState with isReconnecting := true } =
      { initState with isReconnecting := true } ∧
    step (.healthTick 0) { initState with isReconnecting := true } =
      { initState with isReconnecting := true } :=
  ⟨rfl,
   (c8_reconnect_reentrancy { initState with isReconnecting := true } rfl).1,
   (c8_reconnect_reentrancy { initState with isReconnecting := true } rfl).2 0⟩

/-- C9: when the input sample rate equals the target sample rate,
resampling is exactly the pure float-to-int16 conversion applied
elementwise — each sample clamped to [-1, 1], negatives scaled by 32768
and non-negatives by 32767 (asymmetric scaling) — with no averaging
applied. -/
theorem c9_resample_equal_rate (input : List Rat) (rate : Rat) :
    resampleTo16k input rate rate = input.map int16FromSampleSpec := by
  rw [resampleTo16k, if_pos rfl, floatTo16BitPCM]
  have hpt : ∀ x : Rat, floatSampleToInt16 x = int16FromSampleSpec x := by
    intro x
    rw [floatSampleToInt16, int16FromSampleSpec]
    by_cases h1 : x < -1
    · have hmax : max (-1 : Rat) x = -1 := max_eq_left h1.le
      have hno : ¬(1 : Rat) < -1 := by norm_num
      simp [if_pos h1, hmax, hno]
    · have hmax : max (-1 : Rat) x = x := max_eq_right (not_lt.mp h1)
      by_cases h2 : 1 < x
      · have hmin : min (1 : Rat) x = 1 := min_eq_left h2.le
        simp [if_neg h1, if_pos h2, hmax, hmin]
      · have hmin : min (1 : Rat) x = x := min_eq_right (not_lt.mp h2)
        simp [if_neg h1, if_neg h2, hmax, hmin]
  exact List.map_congr_left (fun x _ => hpt x)

/-- C10: in every reachable state of the pipeline the running counter
queuedSamples equals the total number of samples across the frames of
audioBufferQueue (in particular it is never negative), and on any state
with a correct counter dequeueChunk coincides with its floor-free variant,
so the defensive floor-at-zero branch is never taken. -/
theorem c10_counter_invariant :
    (∀ evs : List Event,
      (run evs initState).queuedSamples =
        sumLen (run evs initState).audioBufferQueue ∧
      0 ≤ (run evs initState).queuedSamples) ∧
    (∀ (q : List (List Int)) (qs : Int), qs = sumLen q →
      dequeueChunk q qs = dequeueChunkNoFloor q qs) := by
  constructor
  · intro evs
    have h := (inv_run evs).1
    exact ⟨h, by rw [h]; exact sumLen_nonneg _⟩
  · intro q qs hinv
    have h8 : (CHUNK_SAMPLES : Int) = 800 := rfl
    by_cases h : qs < (CHUNK_SAMPLES : Int)
    · rw [dequeueChunk, dequeueChunkNoFloor, if_pos h, if_pos h]
    · simp only [dequeueChunk, dequeueChunkNoFloor, if_neg h]
      rw [if_neg (show ¬qs - (CHUNK_SAMPLES : Int) < 0 by omega)]

theorem c10_counter_invariant_witness :
    ((run [] initState).queuedSamples =
      sumLen (run [] initState).audioBufferQueue ∧
     0 ≤ (run [] initState).queuedSamples) ∧
    ((3 : Int) = sumLen [[5, 6, 7]] ∧
     dequeueChunk [[5, 6, 7]] 3 = dequeueChunkNoFloor [[5, 6, 7]] 3) :=
  ⟨c10_counter_invariant.1 [],
   ⟨by decide, c10_counter_invariant.2 [[5, 6, 7]] 3 (by decide)⟩⟩

/-- C2: ordering across a reconnect.  Starting from any streaming state
with a correct counter, if a reconnect begins, any audio `mid` arrives
while it is in flight, the reconnect then completes, and any audio `post`
arrives afterwards, then: (1) nothing is sent while reconnecting (live
audio is held in the queue); (2) the queue right before the resumption
holds exactly the held frames; (3) the resumption sends, in order, the
drained replay-buffer chunks first, then the saved backlog followed by the
held audio, cut greedily into chunks in production order; (4) fresh live
audio is sent after all of those, again in production order. -/
theorem c2_ordering_across_reconnect (s1 : S)
    (hstop : s1.sessionStopped = false) (hrec : s1.isReconnecting = false)
    (hcl : s1.client = true) (hctx : s1.audioContextLive = true)
    (hcont : s1.reconCont = [])
    (hinv : s1.queuedSamples = sumLen s1.audioBufferQueue)
    (mid post : List Event) (t : Nat)
    (hmid : ∀ e ∈ mid, isAudio e = true)
    (hpost : ∀ e ∈ post, isAudio e = true) :
    (run mid (step .reconnectBegin s1)).sendLog = s1.sendLog ∧
    (run mid (step .reconnectBegin s1)).audioBufferQueue = audioFrames mid ∧
    (step (.reconnectEnd t) (run mid (step .reconnectBegin s1))).sendLog =
      s1.sendLog ++ s1.slidingBuffer.map Prod.fst ++
        greedyChunks (s1.audioBufferQueue.flatten ++ (audioFrames mid).flatten) ∧
    (run post (step (.reconnectEnd t)
        (run mid (step .reconnectBegin s1)))).sendLog =
      s1.sendLog ++ s1.slidingBuffer.map Prod.fst ++
        greedyChunks (s1.audioBufferQueue.flatten ++ (audioFrames mid).flatten) ++
        greedyChunks
          (greedyRest (s1.audioBufferQueue.flatten ++
            (audioFrames mid).flatten) ++ (audioFrames post).flatten) := by
  have hs2 : step .reconnectBegin s1 =
      { s1 with
        isReconnecting := true,
        slidingBuffer := [],
        lastTranscriptEndTime := 0,
        currentAudioTimestamp := 0,
        savedQueuedSamples := s1.queuedSamples,
        audioBufferQueue := [],
        queuedSamples := 0,
        pendingChunks := [],
        nextSeqNo := 1,
        healthCheckOn := false,
        epochSendLog := [],
        reconCont := [⟨s1.slidingBuffer.map Prod.fst, s1.audioBufferQueue⟩] } := by
    simp [step, hstop, reconnectSessionBegin, hrec, hcont]
  have hR3 : run mid (step .reconnectBegin s1) =
      { s1 with
        isReconnecting := true,
        slidingBuffer := [],
        lastTranscriptEndTime := 0,
        currentAudioTimestamp := 0,
        savedQueuedSamples := s1.queuedSamples,
        audioBufferQueue := audioFrames mid,
        queuedSamples := sumLen (audioFrames mid),
        pendingChunks := [],
        nextSeqNo := 1,
        healthCheckOn := false,
        epochSendLog := [],
        reconCont := [⟨s1.slidingBuffer.map Prod.fst, s1.audioBufferQueue⟩] } := by
    rw [hs2]
    rw [run_audio_reconnecting mid _ hmid rfl (by simpa using hstop)
      (by simpa using hctx)]
    simp
  have h3sendLog : (run mid (step .reconnectBegin s1)).sendLog = s1.sendLog := by
    rw [hR3]
  have h3queue : (run mid (step .reconnectBegin s1)).audioBufferQueue =
      audioFrames mid := by
    rw [hR3]
  have h3cont : (run mid (step .reconnectBegin s1)).reconCont =
      (⟨s1.slidingBuffer.map Prod.fst, s1.audioBufferQueue⟩ : Cont) :: [] := by
    rw [hR3]
  have h3inv : (run mid (step .reconnectBegin s1)).savedQueuedSamples +
      (run mid (step .reconnectBegin s1)).queuedSamples =
      sumLen ((⟨s1.slidingBuffer.map Prod.fst,
        s1.audioBufferQueue⟩ : Cont).savedQueue ++
        (run mid (step .reconnectBegin s1)).audioBufferQueue) := by
    rw [hR3]
    simp [sumLen_append, hinv]
  obtain ⟨h4sendLog, h4stop, h4rec, h4cl, h4ctx, h4inv, h4lt, h4flat, _, _, _⟩ :=
    reconnectEnd_fields (run mid (step .reconnectBegin s1))
      ⟨s1.slidingBuffer.map Prod.fst, s1.audioBufferQueue⟩ [] t h3cont h3inv
  have h4stop' : (step (.reconnectEnd t)
      (run mid (step .reconnectBegin s1))).sessionStopped = false := by
    rw [h4stop, hR3]
    exact hstop
  have h4ctx' : (step (.reconnectEnd t)
      (run mid (step .reconnectBegin s1))).audioContextLive = true := by
    rw [h4ctx, hR3]
    exact hctx
  have hsend4 : (step (.reconnectEnd t)
      (run mid (step .reconnectBegin s1))).sendLog =
      s1.sendLog ++ s1.slidingBuffer.map Prod.fst ++
        greedyChunks (s1.audioBufferQueue.flatten ++
          (audioFrames mid).flatten) := by
    rw [h4sendLog, h3sendLog, h3queue]
    simp [List.append_assoc]
  refine ⟨h3sendLog, h3queue, hsend4, ?_⟩
  rw [run_audio_streaming_sendLog post _ hpost h4stop' h4rec h4cl h4ctx'
    h4inv h4lt]
  rw [hsend4, h4flat, h3queue]
  simp [List.append_assoc]

theorem c2_ordering_across_reconnect_witness :
    (initState.sessionStopped = false ∧ initState.isReconnecting = false ∧
     initState.client = true ∧ initState.audioContextLive = true ∧
     initState.reconCont = [] ∧
     initState.queuedSamples = sumLen initState.audioBufferQueue ∧
     (∀ e ∈ [Event.audio [1, 2] 0], isAudio e = true) ∧
     (∀ e ∈ [Event.audio [3] 1], isAudio e = true)) ∧
    ((run [Event.audio [1, 2] 0] (step .reconnectBegin initState)).sendLog =
      initState.sendLog ∧
     (run [Event.audio [1, 2] 0]
        (step .reconnectBegin initState)).audioBufferQueue =
      audioFrames [Event.audio [1, 2] 0] ∧
     (step (.reconnectEnd 7) (run [Event.audio [1, 2] 0]
        (step .reconnectBegin initState))).sendLog =
      initState.sendLog ++ initState.slidingBuffer.map Prod.fst ++
        greedyChunks (initState.audioBufferQueue.flatten ++
          (audioFrames [Event.audio [1, 2] 0]).flatten) ∧
     (run [Event.audio [3] 1] (step (.reconnectEnd 7)
        (run [Event.audio [1, 2] 0] (step .reconnectBegin initState)))).sendLog =
      initState.sendLog ++ initState.slidingBuffer.map Prod.fst ++
        greedyChunks (initState.audioBufferQueue.flatten ++
          (audioFrames [Event.audio [1, 2] 0]).flatten) ++
        greedyChunks
          (greedyRest (initState.audioBufferQueue.flatten ++
            (audioFrames [Event.audio [1, 2] 0]).flatten) ++
            (audioFrames [Event.audio [3] 1]).flatten)) :=
  ⟨⟨rfl, rfl, rfl, rfl, rfl, rfl, by decide, by decide⟩,
   c2_ordering_across_reconnect initState rfl rfl rfl rfl rfl rfl
     [Event.audio [1, 2] 0] [Event.audio [3] 1] 7 (by decide) (by decide)⟩

/-- C7: recording 10 chunks (the virtual clock advances by the 50 ms chunk
duration per recorded chunk, giving synthetic timestamps 0.00, 0.05, ...,
0.45 s) and then a transcript-progress signal with confirmedEndTime =
0.22 s leaves exactly 5 entries, because trim removes entries from the
front while their timestamp is strictly below the confirmed end time. -/
theorem c7_trim_scenario :
    (step (.transcript (22 / 100))
        (((List.range 10).map (fun i => [(i : Int)])).foldl addToSlidingBuffer
          initState)).slidingBuffer.length = 5 ∧
    (step (.transcript (22 / 100))
        (((List.range 10).map (fun i => [(i : Int)])).foldl addToSlidingBuffer
          initState)).slidingBuffer.map Prod.snd =
      [25 / 100, 30 / 100, 35 / 100, 40 / 100, 45 / 100] := by
  norm_num [List.range_succ, step, handleTranscript, trimSlidingBuffer,
    addToSlidingBuffer, initState, CHUNK_DURATION_S, CHUNK_DURATION_MS]

set_option maxRecDepth 40000 in
set_option maxHeartbeats 1600000 in
/-- C3 (refuted — evaluation of the code at the failing trace): an epoch
sends one chunk, a reconnect begins, the user stops the session, and then
the suspended reconnect resumes.  After the stop, all state is cleared,
nothing more has been sent (one chunk ever), and the health check is
cancelled; the stale resumption nevertheless sends a further chunk to the
transport (the replayed one), re-installs a client and re-arms the health
check, all while the session is still Stopped: no stopped-flag check
exists in reconnectSession (main.ts lines 444-494). -/
theorem c3_stale_reconnect_acts_after_stop :
    (run [Event.audio (List.replicate 800 1) 0, .reconnectBegin, .stop]
      initState).sessionStopped = true ∧
    (run [Event.audio (List.replicate 800 1) 0, .reconnectBegin, .stop]
      initState).sendLog = [List.replicate 800 1] ∧
    (run [Event.audio (List.replicate 800 1) 0, .reconnectBegin, .stop]
      initState).slidingBuffer = [] ∧
    (run [Event.audio (List.replicate 800 1) 0, .reconnectBegin, .stop]
      initState).pendingChunks = [] ∧
    (run [Event.audio (List.replicate 800 1) 0, .reconnectBegin, .stop]
      initState).healthCheckOn = false ∧
    (run [Event.audio (List.replicate 800 1) 0, .reconnectBegin, .stop,
      .reconnectEnd 5] initState).sessionStopped = true ∧
    (run [Event.audio (List.replicate 800 1) 0, .reconnectBegin, .stop,
      .reconnectEnd 5] initState).sendLog =
      [List.replicate 800 1, List.replicate 800 1] ∧
    (run [Event.audio (List.replicate 800 1) 0, .reconnectBegin, .stop,
      .reconnectEnd 5] initState).slidingBuffer.map Prod.fst =
      [List.replicate 800 1] ∧
    (run [Event.audio (List.replicate 800 1) 0, .reconnectBegin, .stop,
      .reconnectEnd 5] initState).healthCheckOn = true := by
  have hA : step (Event.audio (List.replicate 800 1) 0) initState =
      { initState with
        nextSeqNo := 2,
        pendingChunks := [(1, List.replicate 800 1, 0)],
        slidingBuffer := [(List.replicate 800 1, 0)],
        currentAudioTimestamp := CHUNK_DURATION_S,
        sendLog := [List.replicate 800 1],
        epochSendLog := [List.replicate 800 1] } := by
    norm_num [step, enqueueAudio, streamLoop, dequeueChunk, fillChunk,
      sendChunk, addToSlidingBuffer, mapSet, initState, CHUNK_SAMPLES,
      TARGET_SAMPLE_RATE, CHUNK_DURATION_MS]
  have hB : step .reconnectBegin
      ({ initState with
         nextSeqNo := 2,
         pendingChunks := [(1, List.replicate 800 1, 0)],
         slidingBuffer := [(List.replicate 800 1, 0)],
         currentAudioTimestamp := CHUNK_DURATION_S,
         sendLog := [List.replicate 800 1],
         epochSendLog := [List.replicate 800 1] } : S) =
      { initState with
        isReconnecting := true,
        healthCheckOn := false,
        reconCont := [⟨[List.replicate 800 1], []⟩],
        sendLog := [List.replicate 800 1] } := by
    norm_num [step, reconnectSessionBegin, initState]
  have hC : step .stop
      ({ initState with
         isReconnecting := true,
         healthCheckOn := false,
         reconCont := [⟨[List.replicate 800 1], []⟩],
         sendLog := [List.replicate 800 1] } : S) =
      { initState with
        sessionStopped := true,
        audioContextLive := false,
        healthCheckOn := false,
        reconCont := [⟨[List.replicate 800 1], []⟩],
        sendLog := [List.replicate 800 1] } := by
    norm_num [step, stopSession, initState]
  have hrun3 : run [Event.audio (List.replicate 800 1) 0, .reconnectBegin,
      .stop] initState =
      { initState with
        sessionStopped := true,
        audioContextLive := false,
        healthCheckOn := false,
        reconCont := [⟨[List.replicate 800 1], []⟩],
        sendLog := [List.replicate 800 1] } := by
    show step .stop (step .reconnectBegin
      (step (Event.audio (List.replicate 800 1) 0) initState)) = _
    rw [hA, hB, hC]
  obtain ⟨hdsend, hdstop, _, _, _, _, _, _, hdhc, _, hdsb⟩ :=
    reconnectEnd_fields
      ({ initState with
         sessionStopped := true,
         audioContextLive := false,
         healthCheckOn := false,
         reconCont := [⟨[List.replicate 800 1], []⟩],
         sendLog := [List.replicate 800 1] } : S)
      ⟨[List.replicate 800 1], []⟩ [] 5 rfl (by simp [initState, sumLen_nil])
  have hempty : greedyChunks
      ((([] : List (List Int)) ++
        ({ initState with
           sessionStopped := true,
           audioContextLive := false,
           healthCheckOn := false,
           reconCont := [⟨[List.replicate 800 1], []⟩],
           sendLog := [List.replicate 800 1] } : S).audioBufferQueue).flatten) =
      [] := by
    rw [greedyChunks, if_neg (by norm_num [initState, CHUNK_SAMPLES,
      TARGET_SAMPLE_RATE, CHUNK_DURATION_MS])]
  have hrun4 : run [Event.audio (List.replicate 800 1) 0, .reconnectBegin,
      .stop, .reconnectEnd 5] initState =
      step (.reconnectEnd 5)
        ({ initState with
           sessionStopped := true,
           audioContextLive := false,
           healthCheckOn := false,
           reconCont := [⟨[List.replicate 800 1], []⟩],
           sendLog := [List.replicate 800 1] } : S) := by
    show step (.reconnectEnd 5) (step .stop (step .reconnectBegin
      (step (Event.audio (List.replicate 800 1) 0) initState))) = _
    rw [hA, hB, hC]
  rw [hempty] at hdsend
  rw [hrun3, hrun4, hdsend, hdstop, hdhc, hdsb]
  norm_num [initState]

set_option maxRecDepth 40000 in
set_option maxHeartbeats 1600000 in
/-- C4 (refuted — evaluation of the code at the failing trace): one chunk
is sent and recorded, a reconnect begins, one backlog chunk accumulates
while reconnecting, and the reconnect completes.  The new epoch's send log
is [replayed chunk, backlog chunk], but the sliding buffer holds only the
replayed chunk: the queue-drain loop of reconnectSession (main.ts lines
481-490) sends without calling addToSlidingBuffer, so the buffer is not a
suffix of the epoch's send order. -/
theorem c4_replay_buffer_misses_backlog_chunks :
    (run [Event.audio (List.replicate 800 1) 0, .reconnectBegin,
      Event.audio (List.replicate 800 2) 1, .reconnectEnd 2]
      initState).epochSendLog =
      [List.replicate 800 1, List.replicate 800 2] ∧
    (run [Event.audio (List.replicate 800 1) 0, .reconnectBegin,
      Event.audio (List.replicate 800 2) 1, .reconnectEnd 2]
      initState).slidingBuffer.map Prod.fst = [List.replicate 800 1] ∧
    ¬((run [Event.audio (List.replicate 800 1) 0, .reconnectBegin,
        Event.audio (List.replicate 800 2) 1, .reconnectEnd 2]
        initState).slidingBuffer.map Prod.fst <:+
      (run [Event.audio (List.replicate 800 1) 0, .reconnectBegin,
        Event.audio (List.replicate 800 2) 1, .reconnectEnd 2]
        initState).epochSendLog) := by
  have hA : step (Event.audio (List.replicate 800 1) 0) initState =
      { initState with
        nextSeqNo := 2,
        pendingChunks := [(1, List.replicate 800 1, 0)],
        slidingBuffer := [(List.replicate 800 1, 0)],
        currentAudioTimestamp := CHUNK_DURATION_S,
        sendLog := [List.replicate 800 1],
        epochSendLog := [List.replicate 800 1] } := by
    norm_num [step, enqueueAudio, streamLoop, dequeueChunk, fillChunk,
      sendChunk, addToSlidingBuffer, mapSet, initState, CHUNK_SAMPLES,
      TARGET_SAMPLE_RATE, CHUNK_DURATION_MS]
  have hB : step .reconnectBegin
      ({ initState with
         nextSeqNo := 2,
         pendingChunks := [(1, List.replicate 800 1, 0)],
         slidingBuffer := [(List.replicate 800 1, 0)],
         currentAudioTimestamp := CHUNK_DURATION_S,
         sendLog := [List.replicate 800 1],
         epochSendLog := [List.replicate 800 1] } : S) =
      { initState with
        isReconnecting := true,
        healthCheckOn := false,
        reconCont := [⟨[List.replicate 800 1], []⟩],
        sendLog := [List.replicate 800 1] } := by
    norm_num [step, reconnectSessionBegin, initState]
  have hC : step (Event.audio (List.replicate 800 2) 1)
      ({ initState with
         isReconnecting := true,
         healthCheckOn := false,
         reconCont := [⟨[List.replicate 800 1], []⟩],
         sendLog := [List.replicate 800 1] } : S) =
      { initState with
        isReconnecting := true,
        healthCheckOn := false,
        reconCont := [⟨[List.replicate 800 1], []⟩],
        sendLog := [List.replicate 800 1],
        audioBufferQueue := [List.replicate 800 2],
        queuedSamples := 800 } := by
    norm_num [step, enqueueAudio, initState]
  have hrun : run [Event.audio (List.replicate 800 1) 0, .reconnectBegin,
      Event.audio (List.replicate 800 2) 1, .reconnectEnd 2] initState =
      step (.reconnectEnd 2)
        ({ initState with
           isReconnecting := true,
           healthCheckOn := false,
           reconCont := [⟨[List.replicate 800 1], []⟩],
           sendLog := [List.replicate 800 1],
           audioBufferQueue := [List.replicate 800 2],
           queuedSamples := 800 } : S) := by
    show step (.reconnectEnd 2) (step (Event.audio (List.replicate 800 2) 1)
      (step .reconnectBegin
        (step (Event.audio (List.replicate 800 1) 0) initState))) = _
    rw [hA, hB, hC]
  obtain ⟨_, _, _, _, _, _, _, _, _, hdepoch, hdsb⟩ :=
    reconnectEnd_fields
      ({ initState with
         isReconnecting := true,
         healthCheckOn := false,
         reconCont := [⟨[List.replicate 800 1], []⟩],
         sendLog := [List.replicate 800 1],
         audioBufferQueue := [List.replicate 800 2],
         queuedSamples := 800 } : S)
      ⟨[List.replicate 800 1], []⟩ [] 2 rfl
      (by norm_num [initState, sumLen, List.length_replicate])
  have hg : greedyChunks
      ((([] : List (List Int)) ++ [List.replicate 800 (2 : Int)]).flatten) =
      [List.replicate 800 2] := by
    have hlen : (List.replicate 800 (2 : Int)).length = 800 := by
      simp
    rw [show (([] : List (List Int)) ++
        [List.replicate 800 (2 : Int)]).flatten =
        List.replicate 800 (2 : Int) by simp]
    rw [greedyChunks, if_pos (by
      rw [hlen, show CHUNK_SAMPLES = 800 from rfl])]
    rw [List.take_of_length_le (by
        rw [hlen, show CHUNK_SAMPLES = 800 from rfl]),
      List.drop_of_length_le (by
        rw [hlen, show CHUNK_SAMPLES = 800 from rfl])]
    rw [greedyChunks, if_neg (by
      norm_num [CHUNK_SAMPLES, TARGET_SAMPLE_RATE, CHUNK_DURATION_MS])]
  rw [hg] at hdepoch
  rw [hrun, hdepoch, hdsb]
  refine ⟨by norm_num [initState], by norm_num [initState], ?_⟩
  norm_num [initState]
  intro h
  obtain ⟨u, hu⟩ := h
  have hlen1 : u.length = 1 := by
    have hlen := congrArg List.length hu
    simp at hlen
    omega
  obtain ⟨x, hx⟩ : ∃ x, u = [x] := by
    match u, hlen1 with
    | [x], _ => exact ⟨x, rfl⟩
  subst hx
  rw [List.cons_append, List.nil_append] at hu
  injection hu with hx1 hu2
  injection hu2 with hx2 _
  have h12 : (1 : Int) = 2 :=
    List.eq_of_mem_replicate
      (hx2 ▸ List.mem_replicate.mpr (⟨by norm_num, rfl⟩ :
        800 ≠ 0 ∧ (1 : Int) = 1))
  norm_num at h12

/-- C5 (refuted — evaluation of the code at the failing trace): a
reconnect begins and its credential fetch fails.  `isReconnecting` was set
before the await and is reset only after it, and the rejection propagates
out of reconnectSession without any catch, so the flag stays true and the
health-check interval stays cancelled.  Every subsequent trigger — another
transport-close invocation of reconnectSession or a health-monitor tick —
is then a no-op while the session is not stopped: reconnection is
permanently blocked instead of being retried on the next trigger. -/
theorem c5_jwt_failure_blocks_reconnect :
    (run [Event.reconnectBegin, .reconnectFail] initState).isReconnecting =
      true ∧
    (run [Event.reconnectBegin, .reconnectFail] initState).sessionStopped =
      false ∧
    (run [Event.reconnectBegin, .reconnectFail] initState).reconCont = [] ∧
    (run [Event.reconnectBegin, .reconnectFail] initState).healthCheckOn =
      false ∧
    step .reconnectBegin (run [Event.reconnectBegin, .reconnectFail]
      initState) =
      run [Event.reconnectBegin, .reconnectFail] initState ∧
    step (.healthTick 100000) (run [Event.reconnectBegin, .reconnectFail]
      initState) =
      run [Event.reconnectBegin, .reconnectFail] initState := by
  have hrun : run [Event.reconnectBegin, .reconnectFail] initState =
      { initState with
        isReconnecting := true,
        healthCheckOn := false } := by
    show step .reconnectFail (step .reconnectBegin initState) = _
    norm_num [step, reconnectSessionBegin, initState]
  rw [hrun]
  have hb : reconnectSessionBegin
      ({ initState with isReconnecting := true, healthCheckOn := false } : S) =
      { initState with isReconnecting := true, healthCheckOn := false } := by
    rw [reconnectSessionBegin, if_pos rfl]
  refine ⟨rfl, rfl, rfl, rfl, ?_, ?_⟩
  · simp only [step, hb, ite_self]
  · simp only [step, healthCheckTick, hb, ite_self]

end Buffered
